import Mathlib

/-!
Verification of the OrgPilot metadata-intelligence console.

This file gives a shallow embedding, in Lean 4, of the core logic of the
application: the synthetic default page layout (RecordDetailModal in
App.tsx), the record/related-list assembler and the layout fetcher
(services/salesforceService.ts), the dependency- and process-graph
builders (MetadataDictionary, DiagramEditor, AutoDiagram), the impact
propagator (DiagramEditor), and the graph layout wrappers around the
external dagre library.  Effectful TypeScript code is embedded by making
the outcome of each network call an explicit argument; fallible code
returns Except or Option.  Theorems at the end of the file settle the
specification claims against these definitions.
-/

/-- Field metadata (interface SField in the shared type definitions). -/
structure SField where
  apiName : String
  label : String
  ftype : String
  description : Option String := none
  isCustom : Bool := false
  referenceTo : Option (List String) := none
  deriving Repr, DecidableEq

/-- Child relationship metadata (interface SChildRelationship). -/
structure SChildRelationship where
  childSObject : String
  field : String
  relationshipName : String
  cascadeDelete : Bool := false
  deriving Repr, DecidableEq

/-- Object metadata (interface SObject); fields load lazily, hence Option. -/
structure SObject where
  apiName : String
  label : String
  isCustom : Bool := false
  keyPrefix : Option String := none
  description : Option String := none
  fields : Option (List SField) := none
  childRelationships : Option (List SChildRelationship) := none
  recordCount : Option Nat := none
  deriving Repr, DecidableEq

/-- A layout component (interface LayoutComponent): only type = "Field"
components are renderable. -/
structure LayoutComponent where
  ctype : String
  value : String
  deriving Repr, DecidableEq

/-- A layout item (interface LayoutItem). -/
structure LayoutItem where
  label : String
  layoutComponents : List LayoutComponent
  placeholder : Bool := false
  deriving Repr, DecidableEq

/-- A layout row (interface LayoutRow). -/
structure LayoutRow where
  layoutItems : List LayoutItem
  deriving Repr, DecidableEq

/-- A layout section (interface LayoutSection). -/
structure LayoutSection where
  heading : String
  useHeading : Bool
  layoutRows : List LayoutRow
  columns : Option Nat := none
  deriving Repr, DecidableEq

/-- A page layout (interface PageLayout). -/
structure PageLayout where
  id : String
  name : String
  detailLayoutSections : List LayoutSection
  deriving Repr, DecidableEq

/-- Lexicographic order on character lists; the embedding of the
label.localeCompare(label) comparison used by createDefaultLayout. -/
def charListLe : List Char → List Char → Bool
  | [], _ => true
  | _ :: _, [] => false
  | a :: as, b :: bs => if a = b then charListLe as bs else decide (a < b)

/-- Lexicographic string order (localeCompare at-most-zero). -/
def strLe (a b : String) : Bool :=
  charListLe a.data b.data

/-- The comparator of createDefaultLayout, as a boolean total preorder:
the JS comparator returns a negative value exactly when the left field
should not come after the right one.  Name sorts first, Id second, the
rest alphabetically by label. -/
def fieldLe (a b : SField) : Bool :=
  if a.apiName = "Name" then true
  else if b.apiName = "Name" then false
  else if a.apiName = "Id" then true
  else if b.apiName = "Id" then false
  else strLe a.label b.label

/-- The sort performed by createDefaultLayout ([...fields].sort(cmp));
JS Array.prototype.sort is a stable sort, embedded as insertion sort
over the comparator's preorder. -/
def sortFields (fields : List SField) : List SField :=
  List.insertionSort (fun a b => fieldLe a b = true) fields

/-- The layout item built for one field by createDefaultLayout. -/
def defaultLayoutItem (f : SField) : LayoutItem :=
  { label := f.label, layoutComponents := [{ ctype := "Field", value := f.apiName }] }

/-- The 2-column row grouping of createDefaultLayout: a row is pushed
whenever it holds 2 items or the last field has been consumed. -/
def chunkRows : List LayoutItem → List LayoutRow
  | [] => []
  | [a] => [{ layoutItems := [a] }]
  | a :: b :: rest => { layoutItems := [a, b] } :: chunkRows rest

/-- createDefaultLayout (RecordDetailModal in App.tsx): the synthetic
fallback layout, built when the layout service returns nothing. -/
def createDefaultLayout (objectType : String) (fields : List SField) : PageLayout :=
  { id := "system-default"
    name := "System Default Layout"
    detailLayoutSections :=
      [{ heading := objectType ++ " Details"
         useHeading := true
         layoutRows := chunkRows ((sortFields fields).map defaultLayoutItem)
         columns := some 2 }] }

/-- A query-result row as consumed by handleRowClick in SoqlExplorer:
an Id plus the implicit attributes metadata (attributes.type carries the
object api name of the record). -/
structure QueryRow where
  id : String
  attributesType : Option String
  deriving Repr, DecidableEq

/-- handleRowClick (SoqlExplorer): the objectType handed to
RecordDetailModal is record.attributes.type when present. -/
def handleRowClickType (row : QueryRow) : Option String :=
  row.attributesType

/-- The Invoice custom object of src/services/mockSalesforce.ts: its api
name is "Invoice__c" while its label is "Invoice". -/
def invoiceObject : SObject :=
  { apiName := "Invoice__c", label := "Invoice", isCustom := true
    description := some "Custom object for managing customer invoices and billing." }

/-- A child record returned by a related-list sub-select
(SELECT Id, Name, CreatedDate FROM ...). -/
structure ChildRecord where
  id : String
  name : String := ""
  createdDate : String := ""
  deriving Repr, DecidableEq

/-- A scalar record: a field-name-to-value map (dynamic JS object). -/
def BaseRecord : Type := List (String × String)

instance : DecidableEq BaseRecord := by
  unfold BaseRecord
  infer_instance

/-- The parent row of the combined related-list query: under each
relationship name it may carry a sub-select result whose records field
may itself be absent (records || []). -/
def RelatedRow : Type := List (String × Option (List ChildRecord))

/-- Result shape of the query service (runQuery): totalSize is unused by
the assembler, so only records is kept. -/
structure QueryResult where
  records : List RelatedRow

/-- The per-sub-select row cap written into every generated sub-select
(LIMIT 5 in fetchRecordWithRelated). -/
def relatedSubqueryLimit : Nat := 5

/-- The cap on related lists queried per record view
(slice(0, 10) in fetchRecordWithRelated). -/
def relatedListCap : Nat := 10

/-- The relationships actually queried: those with a truthy (non-empty)
relationshipName, capped at 10 (fetchRecordWithRelated, step B). -/
def relationshipsToQuery (childRels : List SChildRelationship) : List SChildRelationship :=
  (childRels.filter (fun r => r.relationshipName ≠ "")).take relatedListCap

/-- The sub-select text generated for one relationship. -/
def relatedSubquery (r : SChildRelationship) : String :=
  "(SELECT Id, Name, CreatedDate FROM " ++ r.relationshipName ++ " LIMIT "
    ++ toString relatedSubqueryLimit ++ ")"

/-- relationshipsToQuery.forEach of fetchRecordWithRelated: merge the
sub-select results found on the parent row into relatedData, keyed by
relationship name; relationships absent from the row are omitted. -/
def buildRelatedData (queried : List SChildRelationship) (row : RelatedRow) :
    List (String × List ChildRecord) :=
  queried.foldl
    (fun acc r =>
      match row.lookup r.relationshipName with
      | none => acc
      | some recs => acc ++ [(r.relationshipName, recs.getD [])])
    []

/-- fetchRecordWithRelated (salesforceService.ts): fetch the base record
(step A, uncaught), then merge the combined related-list query (step B);
a failing related-list query is caught and degrades to relatedData = {}.
The outcome of each network call is an explicit argument. -/
def fetchRecordWithRelated (baseFetch : Except String BaseRecord)
    (childRels : List SChildRelationship)
    (queryOutcome : Except String QueryResult) :
    Except String (BaseRecord × List (String × List ChildRecord)) :=
  match baseFetch with
  | .error e => .error e
  | .ok base =>
    let queried := relationshipsToQuery childRels
    if queried.isEmpty then .ok (base, [])
    else
      match queryOutcome with
      | .error _ => .ok (base, [])
      | .ok resp =>
        match resp.records with
        | [] => .ok (base, [])
        | row :: _ => .ok (base, buildRelatedData queried row)

/-- Outcome of the raw REST call made by fetchObjectLayouts: the fetch
may throw, return a non-ok status, or return JSON whose layouts member
may fail the Array.isArray check. -/
inductive LayoutFetchOutcome where
  | netThrow (msg : String)
  | badStatus
  | okJson (layouts : Option (List PageLayout))
  deriving Repr, DecidableEq

/-- fetchObjectLayouts (salesforceService.ts): every failure mode is
caught locally and becomes the empty list; the function never throws. -/
def fetchObjectLayouts : LayoutFetchOutcome → List PageLayout
  | .netThrow _ => []
  | .badStatus => []
  | .okJson none => []
  | .okJson (some ls) => ls

/-- Result of fetchObjectDetails (fields, child relationships, count). -/
structure ObjDetails where
  fields : List SField
  childRelationships : List SChildRelationship
  recordCount : Nat := 0

/-- The state cells of RecordDetailModal touched by loadRecordAndMetadata. -/
structure ModalState where
  data : Option BaseRecord
  relatedData : Option (List (String × List ChildRecord))
  layouts : List PageLayout
  selectedLayoutId : String
  loading : Bool
  layoutLoading : Bool
  error : Option String
  deriving DecidableEq

/-- The state written by the outer catch of loadRecordAndMetadata. -/
def modalErrorState (e : String) : ModalState :=
  { data := none, relatedData := none, layouts := [], selectedLayoutId := ""
    loading := false, layoutLoading := false, error := some e }

/-- loadRecordAndMetadata (RecordDetailModal in App.tsx): fetch object
details, then the record with related lists, then page layouts; an empty
layout list is replaced by the synthetic default layout, which is then
selected.  The inner try/catch around the layout fetch cannot fire in
this composition because fetchObjectLayouts already catches internally;
its handler builds the same default layout. -/
def loadRecordAndMetadata (objDetailsOutcome : Except String ObjDetails)
    (baseFetch : Except String BaseRecord) (queryOutcome : Except String QueryResult)
    (layoutFetch : LayoutFetchOutcome) (objectType : String) : ModalState :=
  match objDetailsOutcome with
  | .error e => modalErrorState e
  | .ok od =>
    match fetchRecordWithRelated baseFetch od.childRelationships queryOutcome with
    | .error e => modalErrorState e
    | .ok (base, rel) =>
      match fetchObjectLayouts layoutFetch with
      | [] =>
        let d := createDefaultLayout objectType od.fields
        { data := some base, relatedData := some rel, layouts := [d]
          selectedLayoutId := d.id, loading := false, layoutLoading := false
          error := none }
      | first :: restLayouts =>
        { data := some base, relatedData := some rel, layouts := first :: restLayouts
          selectedLayoutId := first.id, loading := false, layoutLoading := false
          error := none }

/-- RASCI flags of a resource assignment (interface ResourceAssignment). -/
structure Rasci where
  r : Bool := false
  a : Bool := false
  s : Bool := false
  c : Bool := false
  i : Bool := false
  deriving Repr, DecidableEq

/-- A resource assigned to a process activity. -/
structure ResourceAssignment where
  resourceId : String
  rasci : Rasci := {}
  deriving Repr, DecidableEq

/-- A ReactFlow node as used across the components (Node with any data):
the union of the data/style members the embedded code reads or writes.
Opacity is exact (style.opacity is 1 or 0.3). -/
structure GraphNode where
  id : String
  ntype : Option String := none
  label : String := ""
  outcome : Option String := none
  resources : List ResourceAssignment := []
  impactLevel : Option String := none
  opacity : ℚ := 1
  position : Int × Int := (0, 0)
  targetPosition : Option String := none
  sourcePosition : Option String := none
  deriving Repr, DecidableEq

/-- A ReactFlow edge as used across the components. -/
structure GraphEdge where
  id : String
  source : String
  target : String
  label : Option String := none
  etype : Option String := none
  animated : Bool := false
  deriving Repr, DecidableEq

/-- JS string-or fallback: a || b is b when a is undefined or empty. -/
def orElseStr (v : Option String) (d : String) : String :=
  match v with
  | some s => if s = "" then d else s
  | none => d

/-- The data member of a node in the AI-generated payload. -/
structure RawAIData where
  label : Option String := none
  outcome : Option String := none
  resources : Option (List ResourceAssignment) := none
  deriving Repr, DecidableEq

/-- A node of the AI-generated payload (untrusted shape). -/
structure RawAINode where
  id : String
  data : Option RawAIData := none
  label : Option String := none
  deriving Repr, DecidableEq

/-- An edge of the AI-generated payload (untrusted shape). -/
structure RawAIEdge where
  id : Option String := none
  source : String
  target : String
  deriving Repr, DecidableEq

/-- handleGenerate (DiagramEditor): normalize one AI node into a UPN
activity node (label falls back to n.label, then to "Activity"). -/
def transformAINode (n : RawAINode) : GraphNode :=
  { id := n.id
    ntype := some "upn-activity"
    position := (0, 0)
    label := orElseStr (n.data.bind (·.label)) (orElseStr n.label "Activity")
    outcome := some (orElseStr (n.data.bind (·.outcome)) "Done")
    resources := (n.data.bind (·.resources)).getD [] }

/-- handleGenerate (DiagramEditor): normalize one AI edge; the id falls
back to e-source-target, source and target are passed through as-is. -/
def transformAIEdge (e : RawAIEdge) : GraphEdge :=
  { id := orElseStr e.id ("e-" ++ e.source ++ "-" ++ e.target)
    source := e.source
    target := e.target
    etype := some "smoothstep" }

/-- handleGenerate (DiagramEditor): the normalized node list. -/
def handleGenerateNodes (rawNodes : List RawAINode) : List GraphNode :=
  rawNodes.map transformAINode

/-- handleGenerate (DiagramEditor): the normalized edge list
(rawData.edges ? rawData.edges.map(...) : []). -/
def handleGenerateEdges (rawEdges : Option (List RawAIEdge)) : List GraphEdge :=
  (rawEdges.getD []).map transformAIEdge

/-- A process-diagram node (interface DiagramNode in the shared types). -/
structure DiagramNode where
  id : String
  label : String
  dtype : String
  deriving Repr, DecidableEq

/-- A process-diagram edge (interface DiagramEdge in the shared types). -/
structure DiagramEdge where
  id : String
  source : String
  target : String
  label : Option String := none
  deriving Repr, DecidableEq

/-- regenerateGraph (AutoDiagram): map diagram nodes to flow nodes
(start becomes input, end becomes output, the rest default). -/
def regenerateGraphNodes (ds : List DiagramNode) : List GraphNode :=
  ds.map fun n =>
    { id := n.id
      label := n.label
      position := (0, 0)
      ntype := some (if n.dtype = "start" then "input"
                     else if n.dtype = "end" then "output" else "default") }

/-- regenerateGraph (AutoDiagram): map diagram edges to flow edges; the
edge type comes from getEdgeOptions for the current style, endpoints are
passed through as-is. -/
def regenerateGraphEdges (edgeType : String) (ds : List DiagramEdge) : List GraphEdge :=
  ds.map fun e =>
    { id := e.id, source := e.source, target := e.target
      label := e.label, etype := some edgeType }

/-- The cap on outgoing dependency edges
(slice(0, 15) in generateDependencyGraph). -/
def referenceFieldCap : Nat := 15

/-- The filter of generateDependencyGraph: reference-typed fields whose
referenceTo is present and non-empty. -/
def isRefField (f : SField) : Bool :=
  f.ftype = "reference" && f.referenceTo.getD [] ≠ []

/-- The fields generateDependencyGraph draws edges from. -/
def referenceFields (fields : List SField) : List SField :=
  (fields.filter isRefField).take referenceFieldCap

/-- The first (and only used) reference target of a field. -/
def firstRefTarget (f : SField) : String :=
  (f.referenceTo.getD []).headD ""

/-- The center node of the dependency graph (the selected object). -/
def depCenterNode (obj : SObject) : GraphNode :=
  { id := obj.apiName, ntype := some "input", label := obj.label, position := (0, 0) }

/-- A dependency-target node (labelled with the target api name). -/
def depTargetNode (target : String) : GraphNode :=
  { id := target, label := target, position := (0, 0) }

/-- The labelled dependency edge produced for one reference field. -/
def depEdge (objApi : String) (f : SField) : GraphEdge :=
  { id := "e-" ++ f.apiName, source := objApi, target := firstRefTarget f
    label := some f.label, etype := some "smoothstep", animated := true }

/-- One iteration of generateDependencyGraph's forEach: add the first
reference target as a node unless already present, then add the edge. -/
def addDependencyField (objApi : String) (acc : List GraphNode × List GraphEdge)
    (f : SField) : List GraphNode × List GraphEdge :=
  let target := firstRefTarget f
  let nodes := if acc.1.any (fun n => n.id = target) then acc.1
               else acc.1 ++ [depTargetNode target]
  (nodes, acc.2 ++ [depEdge objApi f])

/-- generateDependencyGraph (MetadataDictionary): build the node/edge
lists before layout; returns none when the object has no loaded fields
(the early return). -/
def generateDependencyGraph (obj : SObject) : Option (List GraphNode × List GraphEdge) :=
  match obj.fields with
  | none => none
  | some fs =>
    some ((referenceFields fs).foldl (addDependencyField obj.apiName)
      ([depCenterNode obj], []))

/-- The edge-following step of the impact propagator: the children of a
node are the targets of edges whose source equals it
(edges.filter(e => e.source === current).map(e => e.target)). -/
def bfsChildren (edges : List GraphEdge) (current : String) : List String :=
  (edges.filter (fun e => e.source = current)).map (·.target)

/-- The children actually queued in one iteration of the impact loop:
those not already in the downstream set (checked after the current node
was added, so a node already in the visited set is never re-queued). -/
def bfsPushed (edges : List GraphEdge) (visited : List String) (current : String) : List String :=
  (bfsChildren edges current).filter (fun c => c ∉ visited)

/-- One downstreamIds.add(current): JS Set insertion on the visited list. -/
def setAdd (visited : List String) (current : String) : List String :=
  if current ∈ visited then visited else current :: visited

/-- If every element of the appended suffix satisfies the predicate, the
index of the first match cannot move past the end of the original list;
used in the termination argument of the impact loop. -/
theorem findIdx_append_le (p : String → Bool) (l1 l2 : List String)
    (h : ∀ x ∈ l2, p x = true) : (l1 ++ l2).findIdx p ≤ l1.findIdx p := by
  induction l1 with
  | nil =>
    cases l2 with
    | nil => simp
    | cons a t => simp [List.findIdx_cons, h a (by simp)]
  | cons a l1 ih =>
    by_cases hpa : p a <;> simp [List.findIdx_cons, hpa]
    exact ih

/-- The while-loop of runImpactAnalysis (DiagramEditor): shift the head
of the queue, add it to the downstream set, queue its not-yet-visited
children.  Termination: either the visited set grows inside the finite
pool of candidate ids, or it stays fixed and the distance to the first
unvisited queue entry shrinks. -/
def bfsLoop (edges : List GraphEdge) : List String → List String → List String
  | visited, [] => visited
  | visited, current :: tail =>
    bfsLoop edges (setAdd visited current)
      (tail ++ bfsPushed edges (setAdd visited current) current)
termination_by visited queue =>
  ((((edges.map (·.target)).toFinset ∪ queue.toFinset) \ visited.toFinset).card,
   queue.findIdx (fun v => decide (v ∉ visited)))
decreasing_by
  by_cases hc : current ∈ visited
  · have hset : setAdd visited current = visited := by simp [setAdd, hc]
    rw [hset]
    have hpool : (((List.map (fun x => x.target) edges).toFinset ∪
        (tail ++ bfsPushed edges visited current).toFinset) \ visited.toFinset)
        ⊆ (((List.map (fun x => x.target) edges).toFinset ∪
        (current :: tail).toFinset) \ visited.toFinset) := by
      intro v hv
      simp only [Finset.mem_sdiff, Finset.mem_union, List.mem_toFinset, List.mem_append,
        List.mem_cons] at hv ⊢
      obtain ⟨hv1, hv2⟩ := hv
      refine ⟨?_, hv2⟩
      rcases hv1 with h | h | h
      · exact Or.inl h
      · exact Or.inr (Or.inr h)
      · left
        simp only [bfsPushed, bfsChildren, List.mem_filter, List.mem_map] at h
        obtain ⟨⟨e, hef, htr⟩, _⟩ := h
        exact List.mem_map.mpr ⟨e, hef.1, htr⟩
    have hle := Finset.card_le_card hpool
    have hlt2 : List.findIdx (fun v => decide (v ∉ visited)) (tail ++ bfsPushed edges visited current)
        < List.findIdx (fun v => decide (v ∉ visited)) (current :: tail) := by
      have hcur : decide (current ∉ visited) = false := by simp [hc]
      rw [List.findIdx_cons, hcur]
      simp only [cond_false]
      have hax := findIdx_append_le (fun v => decide (v ∉ visited)) tail
        (bfsPushed edges visited current) (by
          intro x hx
          simp only [bfsPushed, List.mem_filter] at hx
          simpa using hx.2)
      omega
    rcases lt_or_eq_of_le hle with h | h
    · exact Prod.Lex.left _ _ h
    · rw [h]
      exact Prod.Lex.right _ hlt2
  · have hset : setAdd visited current = current :: visited := by simp [setAdd, hc]
    apply Prod.Lex.left
    apply Finset.card_lt_card
    rw [hset]
    have hsub : (((List.map (fun x => x.target) edges).toFinset ∪
        (tail ++ bfsPushed edges (current :: visited) current).toFinset) \
        (current :: visited).toFinset)
        ⊆ (((List.map (fun x => x.target) edges).toFinset ∪
        (current :: tail).toFinset) \ visited.toFinset) := by
      intro v hv
      simp only [Finset.mem_sdiff, Finset.mem_union, List.mem_toFinset, List.mem_append,
        List.mem_cons, not_or] at hv ⊢
      obtain ⟨hv1, _, hnv⟩ := hv
      refine ⟨?_, hnv⟩
      rcases hv1 with h | h | h
      · exact Or.inl h
      · exact Or.inr (Or.inr h)
      · left
        simp only [bfsPushed, bfsChildren, List.mem_filter, List.mem_map] at h
        obtain ⟨⟨e, hef, htr⟩, _⟩ := h
        exact List.mem_map.mpr ⟨e, hef.1, htr⟩
    refine (Finset.ssubset_iff_of_subset hsub).mpr ⟨current, ?_, ?_⟩
    · simp [hc]
    · simp

theorem mem_setAdd_of_mem {visited : List String} {current v : String}
    (h : v ∈ visited) : v ∈ setAdd visited current := by
  unfold setAdd
  split <;> simp [h]

theorem mem_setAdd_self (visited : List String) (current : String) :
    current ∈ setAdd visited current := by
  unfold setAdd
  split <;> simp_all

theorem mem_setAdd_elim {visited : List String} {current v : String}
    (h : v ∈ setAdd visited current) : v = current ∨ v ∈ visited := by
  unfold setAdd at h
  split at h <;> simp_all

theorem bfsLoop_nil (edges : List GraphEdge) (visited : List String) :
    bfsLoop edges visited [] = visited := by
  rw [bfsLoop]

theorem bfsLoop_cons (edges : List GraphEdge) (visited : List String)
    (current : String) (tail : List String) :
    bfsLoop edges visited (current :: tail) =
      bfsLoop edges (setAdd visited current)
        (tail ++ bfsPushed edges (setAdd visited current) current) := by
  rw [bfsLoop]

/-- The downstream set only ever grows: visited ids stay in it. -/
theorem bfsLoop_visited_subset (edges : List GraphEdge) :
    ∀ visited queue, ∀ v ∈ visited, v ∈ bfsLoop edges visited queue := by
  intro visited queue
  induction visited, queue using bfsLoop.induct edges with
  | case1 visited => intro v hv; simpa [bfsLoop_nil] using hv
  | case2 visited current tail ih =>
    intro v hv
    rw [bfsLoop_cons]
    exact ih v (mem_setAdd_of_mem hv)

/-- Every queued id ends up in the downstream set. -/
theorem bfsLoop_queue_subset (edges : List GraphEdge) :
    ∀ visited queue, ∀ v ∈ queue, v ∈ bfsLoop edges visited queue := by
  intro visited queue
  induction visited, queue using bfsLoop.induct edges with
  | case1 visited => intro v hv; cases hv
  | case2 visited current tail ih =>
    intro v hv
    rw [bfsLoop_cons]
    rcases List.mem_cons.mp hv with h | h
    · subst h
      exact bfsLoop_visited_subset edges _ _ v (mem_setAdd_self _ _)
    · exact ih v (List.mem_append_left _ h)

/-- One directed hop in the diagram: an edge from a to b. -/
def edgeStep (edges : List GraphEdge) (a b : String) : Prop :=
  ∃ e ∈ edges, e.source = a ∧ e.target = b

/-- Reachability along directed edges (zero or more hops). -/
def Reaches (edges : List GraphEdge) : String → String → Prop :=
  Relation.ReflTransGen (edgeStep edges)

/-- Soundness of the impact loop: if everything visited or queued so far
is reachable from the start, so is everything in the final set. -/
theorem bfsLoop_sound (edges : List GraphEdge) (start : String) :
    ∀ visited queue, (∀ v ∈ visited, Reaches edges start v) →
    (∀ q ∈ queue, Reaches edges start q) →
    ∀ v ∈ bfsLoop edges visited queue, Reaches edges start v := by
  intro visited queue
  induction visited, queue using bfsLoop.induct edges with
  | case1 visited =>
    intro hv _ v hm
    rw [bfsLoop_nil] at hm
    exact hv v hm
  | case2 visited current tail ih =>
    intro hv hq v hm
    rw [bfsLoop_cons] at hm
    refine ih ?_ ?_ v hm
    · intro w hw
      rcases mem_setAdd_elim hw with h | h
      · subst h; exact hq _ (List.mem_cons_self _ _)
      · exact hv w h
    · intro q hqm
      rcases List.mem_append.mp hqm with h | h
      · exact hq q (List.mem_cons_of_mem _ h)
      · have hch : q ∈ bfsChildren edges current := (List.mem_filter.mp h).1
        simp only [bfsChildren, List.mem_map, List.mem_filter] at hch
        obtain ⟨e, ⟨he, hsrc⟩, htgt⟩ := hch
        exact Relation.ReflTransGen.tail (hq current (List.mem_cons_self _ _))
          ⟨e, he, by simpa using hsrc, htgt⟩

/-- Closure of the impact loop: once the queue is drained, the
downstream set is closed under following edges out of its members. -/
theorem bfsLoop_closed (edges : List GraphEdge) :
    ∀ visited queue,
    (∀ u ∈ visited, ∀ c ∈ bfsChildren edges u, c ∈ visited ∨ c ∈ queue) →
    ∀ u ∈ bfsLoop edges visited queue, ∀ c ∈ bfsChildren edges u,
      c ∈ bfsLoop edges visited queue := by
  intro visited queue
  induction visited, queue using bfsLoop.induct edges with
  | case1 visited =>
    intro hcl u hu c hcm
    rw [bfsLoop_nil] at hu ⊢
    rcases hcl u hu c hcm with h | h
    · exact h
    · cases h
  | case2 visited current tail ih =>
    intro hcl u hu c hcm
    rw [bfsLoop_cons] at hu ⊢
    refine ih ?_ u hu c hcm
    intro w hw d hd
    rcases mem_setAdd_elim hw with h | h
    · subst h
      by_cases hdv : d ∈ setAdd visited w
      · exact Or.inl hdv
      · refine Or.inr (List.mem_append_right _ ?_)
        simp only [bfsPushed, List.mem_filter]
        exact ⟨hd, by simpa using hdv⟩
    · rcases hcl w h d hd with h2 | h2
      · exact Or.inl (mem_setAdd_of_mem h2)
      · rcases List.mem_cons.mp h2 with h3 | h3
        · subst h3; exact Or.inl (mem_setAdd_self _ _)
        · exact Or.inr (List.mem_append_left _ h3)

/-- The downstream set computed by runImpactAnalysis for a start id. -/
def runImpactDownstream (edges : List GraphEdge) (startId : String) : List String :=
  bfsLoop edges [] [startId]

/-- The downstream set is exactly the set of ids reachable from the
start (inclusive of the start itself). -/
theorem runImpactDownstream_iff (edges : List GraphEdge) (startId : String) (v : String) :
    v ∈ runImpactDownstream edges startId ↔ Reaches edges startId v := by
  constructor
  · intro h
    refine bfsLoop_sound edges startId [] [startId] (by simp) ?_ v h
    intro q hq
    rcases List.mem_singleton.mp hq with rfl
    exact Relation.ReflTransGen.refl
  · intro h
    have hstart : startId ∈ runImpactDownstream edges startId :=
      bfsLoop_queue_subset edges [] [startId] startId (by simp)
    have hclosed := bfsLoop_closed edges [] [startId] (by simp)
    induction h with
    | refl => exact hstart
    | tail _ hbc ih =>
      obtain ⟨e, he, hsrc, htgt⟩ := hbc
      refine hclosed _ ih _ ?_
      simp only [bfsChildren, List.mem_map, List.mem_filter]
      exact ⟨e, ⟨he, by simp [hsrc]⟩, htgt⟩

/-- The node annotation of runImpactAnalysis: the start node becomes
critical, other downstream nodes high, the rest none (dimmed to 0.3). -/
def annotateImpact (edges : List GraphEdge) (startId : String) (n : GraphNode) : GraphNode :=
  if n.id = startId then { n with impactLevel := some "critical", opacity := 1 }
  else if n.id ∈ runImpactDownstream edges startId then
    { n with impactLevel := some "high", opacity := 1 }
  else { n with impactLevel := some "none", opacity := 3 / 10 }

/-- runImpactAnalysis (DiagramEditor): BFS downstream set plus per-node
annotation. -/
def runImpactAnalysis (edges : List GraphEdge) (nodes : List GraphNode)
    (startId : String) : List GraphNode :=
  nodes.map (annotateImpact edges startId)

/-- clearImpactAnalysis (DiagramEditor): reset every node to none and
full opacity. -/
def clearImpactAnalysis (nodes : List GraphNode) : List GraphNode :=
  nodes.map fun n => { n with impactLevel := some "none", opacity := 1 }

/-- The impact tiers declared on UPNNodeData.impactLevel in the shared
type definitions. -/
def declaredImpactLevels : List String :=
  ["none", "low", "medium", "critical"]

/-- Modelled from the spec: the external dagre library (a third-party
dependency, not part of this repository) computes a hierarchical layered
layout: rank assignment by longest path from sources, then deterministic
per-rank coordinate assignment.  Here: the rank of a node is the longest
incoming-path length, computed by bounded relaxation. -/
def dagreRankStep (edgePairs : List (String × String))
    (ranks : List (String × Nat)) : List (String × Nat) :=
  ranks.map fun p =>
    (p.1, (edgePairs.filter (fun q => q.2 = p.1)).foldl
      (fun m q => max m (((ranks.lookup q.1).getD 0) + 1)) 0)

/-- Modelled from the spec: relax ranks as many times as there are nodes. -/
def dagreIterate (edgePairs : List (String × String)) :
    Nat → List (String × Nat) → List (String × Nat)
  | 0, ranks => ranks
  | n + 1, ranks => dagreIterate edgePairs n (dagreRankStep edgePairs ranks)

/-- Modelled from the spec: the rank table of a graph. -/
def dagreRanks (ids : List String) (edgePairs : List (String × String)) :
    List (String × Nat) :=
  dagreIterate edgePairs ids.length (ids.map fun v => (v, 0))

/-- Modelled from the spec: the rank of one node. -/
def dagreRank (ids : List String) (edgePairs : List (String × String)) (v : String) : Nat :=
  ((dagreRanks ids edgePairs).lookup v).getD 0

/-- Modelled from the spec: position of a node within its rank, given by
insertion order of the graph's nodes. -/
def dagreOrder (ids : List String) (edgePairs : List (String × String)) (v : String) : Nat :=
  ((ids.takeWhile (· ≠ v)).filter
    (fun u => dagreRank ids edgePairs u = dagreRank ids edgePairs v)).length

/-- Modelled from the spec: the anchor (box center) dagre reports for a
node; ranks advance along the layout direction, separated by ranksep,
nodes within a rank by nodesep. -/
def dagreAnchor (w h nodesep ranksep : Int) (dir : String) (ids : List String)
    (edgePairs : List (String × String)) (v : String) : Int × Int :=
  let r : Int := dagreRank ids edgePairs v
  let o : Int := dagreOrder ids edgePairs v
  if dir = "LR" then
    (r * (w + ranksep) + w / 2, o * (h + nodesep) + h / 2)
  else
    (o * (w + nodesep) + w / 2, r * (h + ranksep) + h / 2)

/-- The per-node box of AutoDiagram's layout helper (180 times 50). -/
def autoNodeWidth : Int := 180

def autoNodeHeight : Int := 50

/-- getLayoutedElements (AutoDiagram): run dagre over the node ids and
edge endpoints with rankdir = direction (default TB), then place each
node at its anchor shifted by half its box; edges pass through. -/
def getLayoutedElementsAuto (nodes : List GraphNode) (edges : List GraphEdge)
    (direction : String := "TB") : List GraphNode × List GraphEdge :=
  let ids := nodes.map (·.id)
  let pairs := edges.map fun e => (e.source, e.target)
  (nodes.map fun n =>
    let a := dagreAnchor autoNodeWidth autoNodeHeight 50 50 direction ids pairs n.id
    { n with targetPosition := some "top", sourcePosition := some "bottom"
             position := (a.1 - autoNodeWidth / 2, a.2 - autoNodeHeight / 2) },
   edges)

/-- The per-node box of MetadataDictionary's layout helper (220 times 60). -/
def dictNodeWidth : Int := 220

def dictNodeHeight : Int := 60

/-- getLayoutedElements (MetadataDictionary): same wrapper with the
dictionary's box constants and rankdir default LR. -/
def getLayoutedElementsDict (nodes : List GraphNode) (edges : List GraphEdge)
    (direction : String := "LR") : List GraphNode × List GraphEdge :=
  let ids := nodes.map (·.id)
  let pairs := edges.map fun e => (e.source, e.target)
  (nodes.map fun n =>
    let a := dagreAnchor dictNodeWidth dictNodeHeight 50 50 direction ids pairs n.id
    { n with targetPosition := some "left", sourcePosition := some "right"
             position := (a.1 - dictNodeWidth / 2, a.2 - dictNodeHeight / 2) },
   edges)

/-- The lexicographic character order is total. -/
theorem charListLe_total : ∀ as bs, charListLe as bs = true ∨ charListLe bs as = true := by
  intro as
  induction as with
  | nil => intro bs; exact Or.inl rfl
  | cons a as ih =>
    intro bs
    cases bs with
    | nil => exact Or.inr rfl
    | cons b bs =>
      by_cases hab : a = b
      · subst hab
        simpa [charListLe] using ih bs
      · have hne : b ≠ a := fun h => hab h.symm
        rcases lt_or_gt_of_ne hab with h | h
        · left
          simp [charListLe, hab, h]
        · right
          simp [charListLe, hne, h]

/-- The lexicographic character order is transitive. -/
theorem charListLe_trans : ∀ as bs cs, charListLe as bs = true →
    charListLe bs cs = true → charListLe as cs = true := by
  intro as
  induction as with
  | nil => intro bs cs _ _; rfl
  | cons a as ih =>
    intro bs cs h1 h2
    cases bs with
    | nil => simp [charListLe] at h1
    | cons b bs =>
      cases cs with
      | nil => simp [charListLe] at h2
      | cons c cs =>
        simp only [charListLe] at h1 h2 ⊢
        by_cases hab : a = b
        · subst hab
          by_cases hac : a = c
          · subst hac
            rw [if_pos rfl] at h1 h2 ⊢
            exact ih bs cs h1 h2
          · rw [if_neg hac] at h2 ⊢
            exact h2
        · rw [if_neg hab] at h1
          have hab2 : a < b := of_decide_eq_true h1
          by_cases hbc : b = c
          · subst hbc
            rw [if_neg hab]
            exact h1
          · rw [if_neg hbc] at h2
            have hbc2 : b < c := of_decide_eq_true h2
            have hac2 : a < c := lt_trans hab2 hbc2
            rw [if_neg (ne_of_lt hac2)]
            exact decide_eq_true hac2

/-- The string order is total. -/
theorem strLe_total (a b : String) : strLe a b = true ∨ strLe b a = true :=
  charListLe_total a.data b.data

/-- The string order is transitive. -/
theorem strLe_trans (a b c : String) (h1 : strLe a b = true) (h2 : strLe b c = true) :
    strLe a c = true :=
  charListLe_trans a.data b.data c.data h1 h2

/-- The comparator's order is total. -/
theorem fieldLe_total (a b : SField) : fieldLe a b = true ∨ fieldLe b a = true := by
  unfold fieldLe
  by_cases h1 : a.apiName = "Name" <;> by_cases h2 : b.apiName = "Name" <;>
    by_cases h3 : a.apiName = "Id" <;> by_cases h4 : b.apiName = "Id" <;>
      simp_all <;> exact strLe_total a.label b.label

/-- The comparator's order is transitive. -/
theorem fieldLe_trans (a b c : SField) (h1 : fieldLe a b = true)
    (h2 : fieldLe b c = true) : fieldLe a c = true := by
  unfold fieldLe at h1 h2 ⊢
  by_cases ha1 : a.apiName = "Name" <;> by_cases hb1 : b.apiName = "Name" <;>
    by_cases hc1 : c.apiName = "Name" <;> by_cases ha2 : a.apiName = "Id" <;>
      by_cases hb2 : b.apiName = "Id" <;> by_cases hc2 : c.apiName = "Id" <;>
        simp_all <;> exact strLe_trans a.label b.label c.label h1 h2

instance : IsTotal SField (fun a b => fieldLe a b = true) := ⟨fieldLe_total⟩

instance : IsTrans SField (fun a b => fieldLe a b = true) :=
  ⟨fun a b c => fieldLe_trans a b c⟩

/-- Unfolding of the comparator's order into its plain reading: Name
first, Id second, the remainder ordered by label. -/
theorem fieldLe_iff (a b : SField) : fieldLe a b = true ↔
    (a.apiName = "Name" ∨ (b.apiName ≠ "Name" ∧
      (a.apiName = "Id" ∨ (b.apiName ≠ "Id" ∧ strLe a.label b.label = true)))) := by
  unfold fieldLe
  split_ifs with h1 h2 h3 h4 <;> simp_all

/-- The sorted field list is a permutation of the input. -/
theorem sortFields_perm (fields : List SField) : (sortFields fields).Perm fields :=
  List.perm_insertionSort _ fields

/-- The sorted field list is pairwise ordered by the comparator. -/
theorem sortFields_pairwise (fields : List SField) :
    List.Pairwise (fun a b => fieldLe a b = true) (sortFields fields) :=
  List.sorted_insertionSort _ fields

/-- Row arity of the 2-column grouping: every row holds 2 items, except
a final 1-item row when the item count is odd. -/
theorem chunkRows_lengths (l : List LayoutItem) :
    (chunkRows l).map (fun r => r.layoutItems.length) =
      List.replicate (l.length / 2) 2 ++ (if l.length % 2 = 1 then [1] else []) := by
  induction l using chunkRows.induct with
  | case1 => simp [chunkRows]
  | case2 a => simp [chunkRows]
  | case3 a b rest ih =>
    have hlen : (a :: b :: rest).length = rest.length + 2 := by simp
    rw [chunkRows]
    simp only [List.map_cons, ih, hlen]
    have hdiv : (rest.length + 2) / 2 = rest.length / 2 + 1 := by omega
    have hmod : (rest.length + 2) % 2 = rest.length % 2 := by omega
    rw [hdiv, hmod, List.replicate_succ]
    simp

/-- The 2-column grouping preserves the item sequence. -/
theorem chunkRows_join (l : List LayoutItem) :
    ((chunkRows l).map (·.layoutItems)).flatten = l := by
  induction l using chunkRows.induct with
  | case1 => simp [chunkRows]
  | case2 a => simp [chunkRows]
  | case3 a b rest ih =>
    rw [chunkRows]
    simp [ih]

/-- With the base record fetched, fetchRecordWithRelated always resolves
(every related-list failure mode is converted to data, never rethrown). -/
theorem fetchRecordWithRelated_ok (base : BaseRecord)
    (childRels : List SChildRelationship) (q : Except String QueryResult) :
    ∃ rd, fetchRecordWithRelated (.ok base) childRels q = .ok (base, rd) := by
  unfold fetchRecordWithRelated
  dsimp only
  split
  · exact ⟨[], rfl⟩
  · cases q with
    | error e => exact ⟨[], rfl⟩
    | ok resp =>
      rcases hres : resp.records with _ | ⟨row, rest⟩ <;> simp only [hres] <;>
        exact ⟨_, rfl⟩

/-- Every entry merged into relatedData comes from a queried
relationship whose sub-select result was present on the row. -/
theorem mem_relatedFold (row : RelatedRow) :
    ∀ (queried : List SChildRelationship) (acc : List (String × List ChildRecord))
      (p : String × List ChildRecord),
    p ∈ queried.foldl
      (fun acc r =>
        match row.lookup r.relationshipName with
        | none => acc
        | some recs => acc ++ [(r.relationshipName, recs.getD [])]) acc →
    p ∈ acc ∨ ∃ r ∈ queried, ∃ recs, row.lookup r.relationshipName = some recs ∧
      p = (r.relationshipName, recs.getD []) := by
  intro queried
  induction queried with
  | nil => intro acc p hp; exact Or.inl hp
  | cons r rest ih =>
    intro acc p hp
    rw [List.foldl_cons] at hp
    rcases ih _ p hp with h | h
    · match hlk : row.lookup r.relationshipName with
      | none =>
        rw [hlk] at h
        exact Or.inl h
      | some recs =>
        rw [hlk] at h
        rcases List.mem_append.mp h with h2 | h2
        · exact Or.inl h2
        · rcases List.mem_singleton.mp h2 with rfl
          exact Or.inr ⟨r, List.mem_cons_self _ _, recs, hlk, rfl⟩
    · obtain ⟨r2, hr2, recs, hlk, hpe⟩ := h
      exact Or.inr ⟨r2, List.mem_cons_of_mem _ hr2, recs, hlk, hpe⟩

/-- The edge component of the dependency-graph fold: one edge is
appended per reference field, in order. -/
theorem depFold_edges (api : String) :
    ∀ (fields : List SField) (acc : List GraphNode × List GraphEdge),
    (fields.foldl (addDependencyField api) acc).2 = acc.2 ++ fields.map (depEdge api) := by
  intro fields
  induction fields with
  | nil => intro acc; simp
  | cons f rest ih =>
    intro acc
    rw [List.foldl_cons, ih]
    simp [addDependencyField]

/-- The id set of the dependency-graph fold: the accumulated ids plus
one id per first reference target. -/
theorem depFold_node_ids (api : String) :
    ∀ (fields : List SField) (acc : List GraphNode × List GraphEdge) (v : String),
    (v ∈ (fields.foldl (addDependencyField api) acc).1.map (·.id)) ↔
      (v ∈ acc.1.map (·.id) ∨ ∃ f ∈ fields, v = firstRefTarget f) := by
  intro fields
  induction fields with
  | nil => intro acc v; simp
  | cons f rest ih =>
    intro acc v
    rw [List.foldl_cons, ih]
    constructor
    · rintro (h | h)
      · simp only [addDependencyField] at h
        split at h
        · exact Or.inl h
        · rcases List.mem_map.mp h with ⟨n, hn, hid⟩
          rcases List.mem_append.mp hn with h2 | h2
          · exact Or.inl (List.mem_map.mpr ⟨n, h2, hid⟩)
          · rcases List.mem_singleton.mp h2 with rfl
            exact Or.inr ⟨f, List.mem_cons_self _ _, hid.symm⟩
      · obtain ⟨g, hg, hv⟩ := h
        exact Or.inr ⟨g, List.mem_cons_of_mem _ hg, hv⟩
    · rintro (h | h)
      · refine Or.inl ?_
        simp only [addDependencyField]
        split
        · exact h
        · rcases List.mem_map.mp h with ⟨n, hn, hid⟩
          exact List.mem_map.mpr ⟨n, List.mem_append_left _ hn, hid⟩
      · obtain ⟨g, hg, hv⟩ := h
        rcases List.mem_cons.mp hg with h2 | h2
        · subst h2
          refine Or.inl ?_
          simp only [addDependencyField]
          split
          · next hany =>
            subst hv
            rcases List.any_eq_true.mp hany with ⟨n, hn, hid⟩
            exact List.mem_map.mpr ⟨n, hn, by simpa using hid⟩
          · subst hv
            exact List.mem_map.mpr ⟨depTargetNode (firstRefTarget g),
              List.mem_append_right _ (List.mem_singleton.mpr rfl), rfl⟩
        · exact Or.inr ⟨g, h2, hv⟩

/-- The dependency-graph fold never duplicates a node id. -/
theorem depFold_nodup (api : String) :
    ∀ (fields : List SField) (acc : List GraphNode × List GraphEdge),
    (acc.1.map (·.id)).Nodup → ((fields.foldl (addDependencyField api) acc).1.map (·.id)).Nodup := by
  intro fields
  induction fields with
  | nil => intro acc h; exact h
  | cons f rest ih =>
    intro acc h
    rw [List.foldl_cons]
    refine ih _ ?_
    simp only [addDependencyField]
    split
    · exact h
    · next hany =>
      have hnotmem : firstRefTarget f ∉ acc.1.map (·.id) := by
        intro hmem
        rcases List.mem_map.mp hmem with ⟨n, hn, hid⟩
        exact hany (List.any_eq_true.mpr ⟨n, hn, by simp [hid]⟩)
      have hperm : ((acc.1 ++ [depTargetNode (firstRefTarget f)]).map (·.id)).Perm
          (firstRefTarget f :: acc.1.map (·.id)) := by
        simp only [List.map_append, List.map_cons, List.map_nil, depTargetNode]
        exact List.perm_append_singleton _ _
      exact hperm.nodup_iff.mpr (List.nodup_cons.mpr ⟨hnotmem, h⟩)

/-- The spec's impact example graph: edges 1 to 2, 2 to 3, 1 to 4. -/
def exImpactEdges : List GraphEdge :=
  [{ id := "e1-2", source := "1", target := "2" },
   { id := "e2-3", source := "2", target := "3" },
   { id := "e1-4", source := "1", target := "4" }]

/-- Nodes 1 to 5; node 5 is disconnected from the rest. -/
def exImpactNodes : List GraphNode :=
  [{ id := "1", label := "New Lead Created" },
   { id := "2", label := "Qualify Lead" },
   { id := "3", label := "Convert to Opportunity" },
   { id := "4", label := "Mark as Unqualified" },
   { id := "5", label := "Isolated Step" }]

/-- C1: runImpactAnalysis performs a breadth-first traversal following
edges by source-equals-current; the downstream set contains the start
and is exactly the set of ids reachable from it; the start node is
annotated critical, other downstream nodes high, nodes outside the set
(in particular all unreachable nodes) none; and a node already in the
visited set is never re-queued. -/
theorem impact_propagation_correct (edges : List GraphEdge) (nodes : List GraphNode)
    (startId : String) :
    startId ∈ runImpactDownstream edges startId ∧
    (∀ v, v ∈ runImpactDownstream edges startId ↔ Reaches edges startId v) ∧
    runImpactAnalysis edges nodes startId = nodes.map (annotateImpact edges startId) ∧
    (∀ n ∈ nodes,
      (n.id = startId → (annotateImpact edges startId n).impactLevel = some "critical") ∧
      (n.id ≠ startId → n.id ∈ runImpactDownstream edges startId →
        (annotateImpact edges startId n).impactLevel = some "high") ∧
      (n.id ∉ runImpactDownstream edges startId →
        (annotateImpact edges startId n).impactLevel = some "none") ∧
      (¬ Reaches edges startId n.id →
        (annotateImpact edges startId n).impactLevel = some "none")) ∧
    (∀ visited current, ∀ c ∈ bfsPushed edges visited current, c ∉ visited) := by
  have hstart : startId ∈ runImpactDownstream edges startId :=
    bfsLoop_queue_subset edges [] [startId] startId (List.mem_singleton.mpr rfl)
  refine ⟨hstart, runImpactDownstream_iff edges startId, rfl, ?_, ?_⟩
  · intro n _
    refine ⟨?_, ?_, ?_, ?_⟩
    · intro h; simp [annotateImpact, h]
    · intro h1 h2; simp [annotateImpact, h1, h2]
    · intro h
      have hne : n.id ≠ startId := fun he => h (he ▸ hstart)
      simp [annotateImpact, hne, h]
    · intro h
      have hmem : n.id ∉ runImpactDownstream edges startId := fun hm =>
        h ((runImpactDownstream_iff edges startId n.id).mp hm)
      have hne : n.id ≠ startId := fun he => hmem (he ▸ hstart)
      simp [annotateImpact, hne, hmem]
  · intro visited current c hc
    simpa using (List.mem_filter.mp hc).2

/-- C1 witness: the spec's example graph 1 to 2 to 3 with 1 to 4 and the
isolated node 5, started at 1. -/
theorem impact_propagation_witness :
    ((runImpactAnalysis exImpactEdges exImpactNodes "1").map
      (fun n => (n.id, n.impactLevel)))
      = [("1", some "critical"), ("2", some "high"), ("3", some "high"),
         ("4", some "high"), ("5", some "none")] ∧
    Reaches exImpactEdges "1" "4" ∧ ¬ Reaches exImpactEdges "1" "5" := by
  have h := impact_propagation_correct exImpactEdges exImpactNodes "1"
  have hds : runImpactDownstream exImpactEdges "1" = ["3", "4", "2", "1"] := by
    simp [runImpactDownstream, bfsLoop, setAdd, bfsPushed, bfsChildren, exImpactEdges]
  refine ⟨?_, ?_, ?_⟩
  · simp [runImpactAnalysis, annotateImpact, hds, exImpactNodes]
  · exact (h.2.1 "4").mp (by rw [hds]; decide)
  · intro hr
    have hm := (h.2.1 "5").mpr hr
    rw [hds] at hm
    revert hm
    decide

/-- The one-edge graph used to exhibit the high annotation. -/
def cexImpactEdges : List GraphEdge :=
  [{ id := "e1-2", source := "1", target := "2" }]

/-- Its two nodes. -/
def cexImpactNodes : List GraphNode :=
  [{ id := "1" }, { id := "2" }]

/-- C9 counterexample: on the graph 1 to 2 started at 1, the impact
propagation assigns node 2 the level high, which is not among the four
tiers declared on UPNNodeData.impactLevel. -/
theorem impact_level_outside_declared_cex :
    ((runImpactAnalysis cexImpactEdges cexImpactNodes "1").map
      (fun n => n.impactLevel.getD "none")) = ["critical", "high"] ∧
    "high" ∉ declaredImpactLevels := by
  have hds : runImpactDownstream cexImpactEdges "1" = ["2", "1"] := by
    simp [runImpactDownstream, bfsLoop, setAdd, bfsPushed, bfsChildren, cexImpactEdges]
  constructor
  · simp [runImpactAnalysis, annotateImpact, hds, cexImpactNodes]
  · decide

/-- C9 amended: every level the impact operations assign lies in the
five-value set none, low, medium, critical, high (propagation assigns
critical, high or none; clearing assigns none); the four-value union
declared on UPNNodeData omits the high tier that propagation assigns. -/
theorem impact_levels_assigned (edges : List GraphEdge) (nodes : List GraphNode)
    (startId : String) :
    (∀ n ∈ runImpactAnalysis edges nodes startId,
      n.impactLevel.getD "none" ∈ ["none", "low", "medium", "critical", "high"]) ∧
    (∀ n ∈ clearImpactAnalysis nodes, n.impactLevel = some "none") := by
  constructor
  · intro n hn
    rcases List.mem_map.mp hn with ⟨m, _, rfl⟩
    unfold annotateImpact
    split_ifs <;> simp
  · intro n hn
    rcases List.mem_map.mp hn with ⟨m, _, rfl⟩
    rfl

/-- C9 amended witness: the annotation of node 2 in the one-edge graph
lies in the five-value set. -/
theorem impact_levels_assigned_witness :
    (annotateImpact cexImpactEdges "1" { id := "2" }).impactLevel.getD "none"
      ∈ ["none", "low", "medium", "critical", "high"] := by
  have h := (impact_levels_assigned cexImpactEdges [{ id := "2" }] "1").1
  exact h _ (List.mem_map.mpr ⟨{ id := "2" }, List.mem_singleton.mpr rfl, rfl⟩)

/-- The AI payload of the dangling-edge example: one node a, one edge
from a to the phantom id x. -/
def danglingRawNodes : List RawAINode := [{ id := "a" }]

/-- Its edge list. -/
def danglingRawEdges : List RawAIEdge := [{ source := "a", target := "x" }]

/-- C2 counterexample: the normalized output of handleGenerate contains
no node x, yet exactly one edge referencing x: the process-mode builder
does not drop dangling edges. -/
theorem dangling_edge_kept_cex :
    ((handleGenerateNodes danglingRawNodes).all (fun n => n.id ≠ "x")) = true ∧
    ((handleGenerateEdges (some danglingRawEdges)).countP
      (fun e => e.source = "x" || e.target = "x")) = 1 := by
  constructor <;> decide

/-- C2 amended: the process-mode builders normalize ids, labels and
styling but pass every edge's source and target through unchanged; an
edge whose endpoint does not exist among the nodes is preserved, not
dropped. -/
theorem process_mode_edges_passthrough (rawEdges : List RawAIEdge) (edgeType : String)
    (diagEdges : List DiagramEdge) :
    ((handleGenerateEdges (some rawEdges)).map (fun e => (e.source, e.target))
      = rawEdges.map (fun e => (e.source, e.target))) ∧
    ((regenerateGraphEdges edgeType diagEdges).map (fun e => (e.source, e.target))
      = diagEdges.map (fun e => (e.source, e.target))) := by
  constructor <;>
    simp [handleGenerateEdges, regenerateGraphEdges, transformAIEdge, List.map_map,
      Function.comp]

/-- C2 amended witness: the dangling example edge survives normalization
with its endpoints intact. -/
theorem process_mode_passthrough_witness :
    (handleGenerateEdges (some danglingRawEdges)).map (fun e => (e.source, e.target))
      = [("a", "x")] := by
  have h := (process_mode_edges_passthrough danglingRawEdges "smoothstep" []).1
  rw [h]
  decide

/-- C3: the synthetic default layout sorts fields with Name first, Id
second and the remainder ordered by label (stated as a pairwise order on
the sorted permutation of the input), and groups the items into rows of
exactly 2 except for a final 1-item row when the field count is odd. -/
theorem default_layout_ordering (objectType : String) (fields : List SField) :
    (sortFields fields).Perm fields ∧
    List.Pairwise (fun a b => a.apiName = "Name" ∨ (b.apiName ≠ "Name" ∧
      (a.apiName = "Id" ∨ (b.apiName ≠ "Id" ∧ strLe a.label b.label = true))))
      (sortFields fields) ∧
    ((createDefaultLayout objectType fields).detailLayoutSections.map
      (fun s => s.layoutRows.map (fun r => r.layoutItems.length)))
      = [List.replicate (fields.length / 2) 2
          ++ if fields.length % 2 = 1 then [1] else []] ∧
    ((createDefaultLayout objectType fields).detailLayoutSections.map
      (fun s => (s.layoutRows.map (·.layoutItems)).flatten))
      = [(sortFields fields).map defaultLayoutItem] := by
  refine ⟨sortFields_perm fields, ?_, ?_, ?_⟩
  · exact (sortFields_pairwise fields).imp (fun h => (fieldLe_iff _ _).mp h)
  · have hlen : ((sortFields fields).map defaultLayoutItem).length = fields.length := by
      rw [List.length_map, (sortFields_perm fields).length_eq]
    simp [createDefaultLayout, chunkRows_lengths, hlen]
  · simp [createDefaultLayout, chunkRows_join]

/-- Fields exercising the default-layout sort: Name and Id jump ahead,
the rest are ordered by label. -/
def exLayoutFields : List SField :=
  [{ apiName := "Zone__c", label := "Zone", ftype := "text" },
   { apiName := "Id", label := "Record ID", ftype := "id" },
   { apiName := "Amount__c", label := "Amount", ftype := "number" },
   { apiName := "Name", label := "Name", ftype := "text" },
   { apiName := "CreatedDate", label := "Created Date", ftype := "datetime" }]

/-- C3 witness: five fields sort to Name, Id, then label order, and are
grouped into rows of 2, 2, 1. -/
theorem default_layout_ordering_witness :
    ((sortFields exLayoutFields).map (·.apiName))
      = ["Name", "Id", "Amount__c", "CreatedDate", "Zone__c"] ∧
    ((createDefaultLayout "Account" exLayoutFields).detailLayoutSections.map
      (fun s => s.layoutRows.map (fun r => r.layoutItems.length))) = [[2, 2, 1]] := by
  have h := default_layout_ordering "Account" exLayoutFields
  refine ⟨by decide, ?_⟩
  rw [h.2.2.1]
  decide

/-- C4: when the layout transport throws or the layout service yields
zero layouts, record loading resolves without an error, builds the
synthetic default layout from the entity's fields, selects it, and its
id is the reserved sentinel system-default. -/
theorem layout_fallback_on_failure (objectType : String) (od : ObjDetails)
    (base : BaseRecord) (q : Except String QueryResult) (lf : LayoutFetchOutcome)
    (hempty : fetchObjectLayouts lf = []) :
    (loadRecordAndMetadata (.ok od) (.ok base) q lf objectType).error = none ∧
    (loadRecordAndMetadata (.ok od) (.ok base) q lf objectType).layouts
      = [createDefaultLayout objectType od.fields] ∧
    (loadRecordAndMetadata (.ok od) (.ok base) q lf objectType).selectedLayoutId
      = "system-default" ∧
    (createDefaultLayout objectType od.fields).id = "system-default" := by
  obtain ⟨rd, hrd⟩ := fetchRecordWithRelated_ok base od.childRelationships q
  unfold loadRecordAndMetadata
  dsimp only
  rw [hrd, hempty]
  exact ⟨rfl, rfl, rfl, rfl⟩

/-- A single describe field for the fallback witness. -/
def exDetailField : SField := { apiName := "Name", label := "Name", ftype := "string" }

/-- C4 witness: a throwing layout transport combined with a failing
related-list query still yields the selected sentinel layout and no
error. -/
theorem layout_fallback_witness :
    (loadRecordAndMetadata (.ok { fields := [exDetailField], childRelationships := [] })
      (.ok ([] : BaseRecord)) (.error "related query failed")
      (.netThrow "layout fetch failed") "Account").selectedLayoutId = "system-default" ∧
    (loadRecordAndMetadata (.ok { fields := [exDetailField], childRelationships := [] })
      (.ok ([] : BaseRecord)) (.error "related query failed")
      (.netThrow "layout fetch failed") "Account").error = none := by
  have h := layout_fallback_on_failure "Account"
    { fields := [exDetailField], childRelationships := [] } ([] : BaseRecord)
    (.error "related query failed") (.netThrow "layout fetch failed") rfl
  exact ⟨h.2.2.1, h.1⟩

/-- C5: at most 10 child relationships are queried, all with a non-empty
relationship name; and under the platform's LIMIT contract for the
generated sub-selects (every sub-select result on the returned row holds
at most 5 records), every entry of relatedData holds at most 5 child
records and is keyed by a queried relationship name. -/
theorem related_list_caps (childRels : List SChildRelationship) (base : BaseRecord)
    (q : Except String QueryResult)
    (hplatform : ∀ resp, q = .ok resp → ∀ row ∈ resp.records,
      ∀ name recs, row.lookup name = some recs →
        (recs.getD []).length ≤ relatedSubqueryLimit) :
    (relationshipsToQuery childRels).length ≤ relatedListCap ∧
    (∀ r ∈ relationshipsToQuery childRels, r.relationshipName ≠ "") ∧
    (∀ rd, fetchRecordWithRelated (.ok base) childRels q = .ok (base, rd) →
      ∀ p ∈ rd, p.2.length ≤ relatedSubqueryLimit ∧
        p.1 ∈ (relationshipsToQuery childRels).map (·.relationshipName)) := by
  refine ⟨?_, ?_, ?_⟩
  · exact List.length_take_le _ _
  · intro r hr
    have hr2 := List.mem_of_mem_take hr
    simpa using (List.mem_filter.mp hr2).2
  · intro rd heq p hp
    unfold fetchRecordWithRelated at heq
    dsimp only at heq
    split at heq
    · simp only [Except.ok.injEq, Prod.mk.injEq] at heq
      obtain ⟨-, h2⟩ := heq
      subst h2
      cases hp
    · cases q with
      | error e =>
        simp only [Except.ok.injEq, Prod.mk.injEq] at heq
        obtain ⟨-, h2⟩ := heq
        subst h2
        cases hp
      | ok resp =>
        dsimp only at heq
        rcases hres : resp.records with _ | ⟨row, rest⟩
        · rw [hres] at heq
          simp only [Except.ok.injEq, Prod.mk.injEq] at heq
          obtain ⟨-, h2⟩ := heq
          subst h2
          cases hp
        · rw [hres] at heq
          simp only [Except.ok.injEq, Prod.mk.injEq] at heq
          obtain ⟨-, h2⟩ := heq
          subst h2
          have hm := mem_relatedFold row (relationshipsToQuery childRels) [] p
            (by simpa [buildRelatedData] using hp)
          rcases hm with h | ⟨r, hrq, recs, hlk, rfl⟩
          · cases h
          · constructor
            · exact hplatform resp rfl row
                (by rw [hres]; exact List.mem_cons_self _ _) _ _ hlk
            · exact List.mem_map.mpr ⟨r, hrq, rfl⟩

/-- Twelve child relationships (one with an empty name): the query plan
stops at 10. -/
def exChildRels : List SChildRelationship :=
  [{ childSObject := "Contact", field := "AccountId", relationshipName := "Contacts" },
   { childSObject := "Case", field := "AccountId", relationshipName := "Cases" },
   { childSObject := "Opportunity", field := "AccountId", relationshipName := "Opportunities" },
   { childSObject := "Task", field := "WhatId", relationshipName := "Tasks" },
   { childSObject := "Event", field := "WhatId", relationshipName := "Events" },
   { childSObject := "Note", field := "ParentId", relationshipName := "" },
   { childSObject := "Order", field := "AccountId", relationshipName := "Orders" },
   { childSObject := "Contract", field := "AccountId", relationshipName := "Contracts" },
   { childSObject := "Asset", field := "AccountId", relationshipName := "Assets" },
   { childSObject := "Quote", field := "AccountId", relationshipName := "Quotes" },
   { childSObject := "Invoice__c", field := "Account__c", relationshipName := "Invoices__r" },
   { childSObject := "Project_Log__c", field := "Account__c", relationshipName := "Project_Logs__r" }]

/-- The three contacts the platform returns under the Contacts key. -/
def exChildRecs : List ChildRecord :=
  [{ id := "0035g001" }, { id := "0035g002" }, { id := "0035g003" }]

/-- The parent row of the combined query in the witness. -/
def exRelatedRowW : RelatedRow := [("Contacts", some exChildRecs)]

/-- The combined query result of the witness. -/
def exQueryResultW : QueryResult := { records := [exRelatedRowW] }

/-- C5 witness: 12 relationships collapse to at most 10, and the merged
Contacts list respects the 5-record cap. -/
theorem related_list_caps_witness :
    (relationshipsToQuery exChildRels).length ≤ relatedListCap ∧
    exChildRecs.length ≤ relatedSubqueryLimit := by
  have hplat : ∀ resp, (Except.ok exQueryResultW : Except String QueryResult) = .ok resp →
      ∀ row ∈ resp.records, ∀ name recs, row.lookup name = some recs →
        (recs.getD []).length ≤ relatedSubqueryLimit := by
    intro resp hq row hrow name recs hlk
    cases hq
    simp only [exQueryResultW, List.mem_singleton] at hrow
    subst hrow
    by_cases hn : name = "Contacts"
    · subst hn
      simp only [exRelatedRowW, List.lookup, beq_self_eq_true] at hlk
      injection hlk with h
      subst h
      decide
    · have hb : (name == "Contacts") = false := by
        simpa using hn
      simp [exRelatedRowW, List.lookup, hb] at hlk
  have h := related_list_caps exChildRels ([] : BaseRecord) (.ok exQueryResultW) hplat
  refine ⟨h.1, ?_⟩
  have h3 := h.2.2 [("Contacts", exChildRecs)] (by rfl)
    ("Contacts", exChildRecs) (List.mem_singleton.mpr rfl)
  exact h3.1

/-- C6: if the combined related-list query throws, fetchRecordWithRelated
still resolves successfully with the scalar record and an empty
relatedData map. -/
theorem related_query_failure_isolation (base : BaseRecord)
    (childRels : List SChildRelationship) (msg : String) :
    fetchRecordWithRelated (.ok base) childRels (.error msg) = .ok (base, []) := by
  unfold fetchRecordWithRelated
  dsimp only
  split <;> rfl

/-- C7: in dependency mode every reference field within the cap yields
exactly one labelled edge targeting only the first referenceTo entry, at
most 15 edges are produced, and the node list holds one node per
distinct first target plus the selected object, without duplicates. -/
theorem dependency_graph_first_target (obj : SObject) (fs : List SField)
    (h : obj.fields = some fs) (nodes : List GraphNode) (edges : List GraphEdge)
    (hg : generateDependencyGraph obj = some (nodes, edges)) :
    edges = (referenceFields fs).map (depEdge obj.apiName) ∧
    edges.length ≤ referenceFieldCap ∧
    (∀ f ∈ referenceFields fs, depEdge obj.apiName f ∈ edges ∧
      (depEdge obj.apiName f).target = firstRefTarget f ∧
      (depEdge obj.apiName f).label = some f.label ∧
      (depEdge obj.apiName f).source = obj.apiName) ∧
    (nodes.map (·.id)).Nodup ∧
    (∀ v, v ∈ nodes.map (·.id) ↔
      (v = obj.apiName ∨ ∃ f ∈ referenceFields fs, v = firstRefTarget f)) := by
  unfold generateDependencyGraph at hg
  rw [h] at hg
  simp only [Option.some.injEq] at hg
  have hn := congrArg Prod.fst hg
  have he := congrArg Prod.snd hg
  dsimp only at hn he
  have hedges : edges = (referenceFields fs).map (depEdge obj.apiName) := by
    rw [← he, depFold_edges]
    simp
  refine ⟨hedges, ?_, ?_, ?_, ?_⟩
  · rw [hedges, List.length_map]
    exact List.length_take_le _ _
  · intro f hf
    exact ⟨by rw [hedges]; exact List.mem_map.mpr ⟨f, hf, rfl⟩, rfl, rfl, rfl⟩
  · rw [← hn]
    refine depFold_nodup obj.apiName (referenceFields fs)
      ([depCenterNode obj], []) ?_
    simp [depCenterNode]
  · intro v
    rw [← hn, depFold_node_ids]
    simp [depCenterNode]

/-- A reference field with two possible targets. -/
def exRefField : SField :=
  { apiName := "Account__c", label := "Account", ftype := "reference"
    referenceTo := some ["B", "C"] }

/-- An object holding only that field. -/
def exRefObj : SObject :=
  { apiName := "A", label := "Object A", fields := some [exRefField] }

/-- C7 witness: referenceTo = B, C produces exactly one edge, targeting
B only, labelled with the field's label. -/
theorem dependency_graph_witness :
    generateDependencyGraph exRefObj
      = some ([depCenterNode exRefObj, depTargetNode "B"], [depEdge "A" exRefField]) ∧
    (depEdge "A" exRefField).target = "B" ∧
    (depEdge "A" exRefField).label = some "Account" ∧
    [depEdge "A" exRefField].length ≤ referenceFieldCap := by
  have heq : generateDependencyGraph exRefObj
      = some ([depCenterNode exRefObj, depTargetNode "B"], [depEdge "A" exRefField]) := by
    rfl
  have h := dependency_graph_first_target exRefObj [exRefField] rfl _ _ heq
  exact ⟨heq, rfl, rfl, h.2.1⟩

/-- The query row opening the record view on an Invoice record: the
attributes.type metadata carries the object api name. -/
def exInvoiceRow : QueryRow :=
  { id := "a015g000001", attributesType := some "Invoice__c" }

/-- C8 counterexample: the record view opened from a query row passes
the api name Invoice__c to the modal, so the synthetic layout's heading
is "Invoice__c Details", not the object's label "Invoice" followed by
" Details". -/
theorem default_layout_heading_cex :
    handleRowClickType exInvoiceRow = some invoiceObject.apiName ∧
    ((createDefaultLayout invoiceObject.apiName [exDetailField]).detailLayoutSections.map
      (·.heading)) = ["Invoice__c Details"] ∧
    "Invoice__c Details" ≠ invoiceObject.label ++ " Details" := by
  refine ⟨rfl, rfl, ?_⟩
  decide

/-- C8 amended: the synthetic default layout always consists of a single
section headed by the objectType string handed to the record view (the
object's api name) followed by " Details", with useHeading true, and its
identity is the fixed sentinel id system-default with the name System
Default Layout. -/
theorem default_layout_identity (objectType : String) (fields : List SField) :
    (createDefaultLayout objectType fields).id = "system-default" ∧
    (createDefaultLayout objectType fields).name = "System Default Layout" ∧
    ((createDefaultLayout objectType fields).detailLayoutSections.map
      (fun s => (s.heading, s.useHeading))) = [(objectType ++ " Details", true)] :=
  ⟨rfl, rfl, rfl⟩

/-- C8 amended witness: the Invoice record view gets the sentinel id and
the api-name heading. -/
theorem default_layout_identity_witness :
    (createDefaultLayout "Invoice__c" [exDetailField]).id = "system-default" ∧
    ((createDefaultLayout "Invoice__c" [exDetailField]).detailLayoutSections.map
      (fun s => (s.heading, s.useHeading))) = [("Invoice__c Details", true)] := by
  have h := default_layout_identity "Invoice__c" [exDetailField]
  exact ⟨h.1, h.2.2⟩

/-- C10: both graph-layout wrappers are pure functions of their three
arguments: two calls on identical node sets, edge sets and direction
return identical positioned output; node identities and the edge list
pass through unchanged. -/
theorem layout_engine_deterministic (ns1 ns2 : List GraphNode) (es1 es2 : List GraphEdge)
    (dir1 dir2 : String) (hn : ns1 = ns2) (he : es1 = es2) (hd : dir1 = dir2) :
    getLayoutedElementsAuto ns1 es1 dir1 = getLayoutedElementsAuto ns2 es2 dir2 ∧
    getLayoutedElementsDict ns1 es1 dir1 = getLayoutedElementsDict ns2 es2 dir2 ∧
    (getLayoutedElementsAuto ns1 es1 dir1).1.map (·.id) = ns1.map (·.id) ∧
    (getLayoutedElementsAuto ns1 es1 dir1).2 = es1 ∧
    (getLayoutedElementsDict ns1 es1 dir1).1.map (·.id) = ns1.map (·.id) ∧
    (getLayoutedElementsDict ns1 es1 dir1).2 = es1 := by
  subst hn
  subst he
  subst hd
  refine ⟨rfl, rfl, ?_, rfl, ?_, rfl⟩ <;>
    simp [getLayoutedElementsAuto, getLayoutedElementsDict, List.map_map, Function.comp]

/-- C10 witness: re-running the layout on the example diagram changes
nothing, and the edges come back untouched. -/
theorem layout_engine_deterministic_witness :
    getLayoutedElementsAuto exImpactNodes exImpactEdges "TB"
      = getLayoutedElementsAuto exImpactNodes exImpactEdges "TB" ∧
    (getLayoutedElementsDict exImpactNodes exImpactEdges "LR").2 = exImpactEdges := by
  have h1 := layout_engine_deterministic exImpactNodes exImpactNodes exImpactEdges
    exImpactEdges "TB" "TB" rfl rfl rfl
  have h2 := layout_engine_deterministic exImpactNodes exImpactNodes exImpactEdges
    exImpactEdges "LR" "LR" rfl rfl rfl
  exact ⟨h1.1, h2.2.2.2.2.2⟩
